import Mathlib

/-!
Verification of the cider build-distribution core against its specification.

The Go sources are shallowly embedded: byte strings become `List Nat`
(each element a byte value), Go maps become association lists, Go channels
used as semaphores become token counters, and fallible operations return
`Except`/`Option`.  External collaborators (the network, the filesystem,
the VCS commands, the child process) are supplied as oracle fields of an
environment structure, exactly at the call sites where the Go code invokes
them.
-/

set_option maxRecDepth 8000

namespace Cider

/-! ## Wire codec (go-websocket-frames, `marshal` / `unmarshal`)

A message is a list of frames; on the wire it is a big-endian u32 frame
count followed, per frame, by a big-endian u32 length and the frame bytes.
-/

/-- `^uint32(0)` as a natural number: the largest frame count / frame size. -/
def maxUint32 : Nat := 2 ^ 32 - 1

/-- Errors of the frames codec, one constructor per `error` value the Go
code can return (`io.EOF` and `io.ErrUnexpectedEOF` come from
`bytes.Reader` / `binary.Read`). -/
inductive FramesError where
  | tooManyFrames
  | frameTooLarge
  | frameCountMissing
  | messageTooShort
  | eofErr
  | unexpectedEofErr
  deriving Repr, DecidableEq

/-- Big-endian encoding of a `uint32` value, as written by
`binary.Write(b, binary.BigEndian, uint32 v)`. -/
def u32be (n : Nat) : List Nat :=
  [n / 16777216 % 256, n / 65536 % 256, n / 256 % 256, n % 256]

/-- Big-endian value of a byte list, as read by `binary.Read`. -/
def beVal (bs : List Nat) : Nat :=
  bs.foldl (fun acc b => acc * 256 + b) 0

/-- The per-frame body writes of `marshal`: for each frame, check the size
cap, then append the u32 length and the frame bytes to the buffer. -/
def writeFrames : List (List Nat) → Except FramesError (List Nat)
  | [] => .ok []
  | f :: fs =>
    if f.length > maxUint32 then .error .frameTooLarge
    else do
      let rest ← writeFrames fs
      .ok (u32be f.length ++ f ++ rest)

/-- `marshal`: frame-count cap check, u32 frame count, then the frame
bodies. -/
def marshal (frames : List (List Nat)) : Except FramesError (List Nat) :=
  if frames.length > maxUint32 then .error .tooManyFrames
  else do
    let body ← writeFrames frames
    .ok (u32be frames.length ++ body)

/-- `binary.Read` of a `uint32` from the reader: needs four bytes;
zero remaining bytes is `io.EOF`, one to three is
`io.ErrUnexpectedEOF`. -/
def readU32 : List Nat → Except FramesError (Nat × List Nat)
  | b0 :: b1 :: b2 :: b3 :: rest =>
    .ok (((b0 * 256 + b1) * 256 + b2) * 256 + b3, rest)
  | [] => .error .eofErr
  | _ => .error .unexpectedEofErr

/-- One `r.Read(frames[i])` step followed by the `n != frameLen` check of
`unmarshal`.  `bytes.Reader.Read` returns `io.EOF` whenever the read
position is at the end of the buffer (even for a zero-length destination);
otherwise it copies `min len remaining` bytes with no error, and the Go
code reports `ErrMessageTooShort` when fewer than `len` bytes arrived. -/
def readBody (len : Nat) (buf : List Nat) :
    Except FramesError (List Nat × List Nat) :=
  if buf.isEmpty then .error .eofErr
  else if buf.length < len then .error .messageTooShort
  else .ok (buf.take len, buf.drop len)

/-- The read loop of `unmarshal`: for each of the `n` declared frames, read
a u32 length and then that many bytes. -/
def readLoop : Nat → List Nat → Except FramesError (List (List Nat))
  | 0, _ => .ok []
  | n + 1, buf => do
    let (flen, buf1) ← readU32 buf
    let (frame, buf2) ← readBody flen buf1
    let rest ← readLoop n buf2
    .ok (frame :: rest)

/-- `unmarshal`: messages shorter than four bytes miss the frame count;
a zero frame count returns the empty message immediately; otherwise the
frames are read in a loop. -/
def unmarshal (msg : List Nat) : Except FramesError (List (List Nat)) :=
  match msg with
  | b0 :: b1 :: b2 :: b3 :: rest =>
    let nFrames := ((b0 * 256 + b1) * 256 + b2) * 256 + b3
    if nFrames = 0 then .ok [] else readLoop nFrames rest
  | _ => .error .frameCountMissing

/-- The wire layout exactly as the specification words it: a big-endian
u32 frame count followed, for each frame, by a big-endian u32 length and
that many bytes.  This definition follows the spec text; `marshal` follows
the Go buffer writes; the round-trip theorem relates the two. -/
def specWireForm (frames : List (List Nat)) : List Nat :=
  u32be frames.length ++ (frames.map (fun f => u32be f.length ++ f)).flatten

/-- A message whose final frame (if any) is non-empty.  `unmarshal` hits
the `bytes.Reader` end-of-buffer `io.EOF` exactly when the final declared
frame is empty, so the round trip needs this side condition. -/
def lastFrameNonempty : List (List Nat) → Bool
  | [] => true
  | [f] => !f.isEmpty
  | _ :: f :: fs => lastFrameNonempty (f :: fs)

theorem exceptBind_ok {ε α β : Type} (a : α) (f : α → Except ε β) :
    (Except.ok (ε := ε) a >>= f) = f a := rfl

theorem readU32_u32be (n : Nat) (rest : List Nat) (h : n ≤ maxUint32) :
    readU32 (u32be n ++ rest) = .ok (n, rest) := by
  have h' : n < 4294967296 := by
    simp only [maxUint32] at h; omega
  simp only [u32be, List.cons_append, List.nil_append, readU32, Except.ok.injEq,
    Prod.mk.injEq]
  exact ⟨by omega, trivial⟩

theorem writeFrames_eq (fs : List (List Nat)) (h : ∀ f ∈ fs, f.length ≤ maxUint32) :
    writeFrames fs = .ok ((fs.map (fun f => u32be f.length ++ f)).flatten) := by
  induction fs with
  | nil => rfl
  | cons f fs ih =>
    have hf : ¬ f.length > maxUint32 := Nat.not_lt.mpr (h f (by simp))
    have hfs : ∀ g ∈ fs, g.length ≤ maxUint32 := fun g hg => h g (by simp [hg])
    simp [writeFrames, hf, ih hfs, exceptBind_ok, List.append_assoc]

theorem encodeFrames_ne_nil (f : List Nat) (fs : List (List Nat)) :
    ((f :: fs).map (fun g => u32be g.length ++ g)).flatten ≠ [] := by
  simp [u32be]

theorem readLoop_cons (n : Nat) (f rest : List Nat) (out : List (List Nat))
    (hf : f.length ≤ maxUint32) (hne : ¬(f = [] ∧ rest = []))
    (hres : readLoop n rest = .ok out) :
    readLoop (n + 1) (u32be f.length ++ f ++ rest) = .ok (f :: out) := by
  have hbufne : (f ++ rest).isEmpty = false := by
    cases hx : f ++ rest with
    | nil => exact absurd (List.append_eq_nil.mp hx) hne
    | cons a l => simp
  have hlen : ¬ (f ++ rest).length < f.length := by
    simp [List.length_append]
  rw [List.append_assoc]
  simp only [readLoop, readU32_u32be f.length (f ++ rest) hf, exceptBind_ok]
  simp only [readBody, hbufne, Bool.false_eq_true, if_false, hlen, if_false,
    List.take_left, List.drop_left, exceptBind_ok, hres]

theorem readLoop_encode (fs : List (List Nat))
    (h : ∀ f ∈ fs, f.length ≤ maxUint32)
    (hlast : lastFrameNonempty fs = true) :
    readLoop fs.length ((fs.map (fun f => u32be f.length ++ f)).flatten) = .ok fs := by
  induction fs with
  | nil => rfl
  | cons f fs ih =>
    have hf : f.length ≤ maxUint32 := h f (by simp)
    cases fs with
    | nil =>
      have hne : f ≠ [] := by
        intro hx
        rw [hx] at hlast
        simp [lastFrameNonempty] at hlast
      have := readLoop_cons 0 f [] [] hf (by simp [hne]) rfl
      simpa using this
    | cons g gs =>
      have hgs : ∀ x ∈ g :: gs, x.length ≤ maxUint32 := fun x hx => h x (by simp [hx])
      have hlast' : lastFrameNonempty (g :: gs) = true := by
        simpa [lastFrameNonempty] using hlast
      have hrest := ih hgs hlast'
      have hrbne := encodeFrames_ne_nil g gs
      have h2 : readLoop ((g :: gs).length + 1)
          (u32be f.length ++ f ++ ((g :: gs).map (fun x => u32be x.length ++ x)).flatten) =
          .ok (f :: g :: gs) :=
        readLoop_cons _ _ _ _ hf (fun hx => hrbne hx.2) hrest
      simpa [List.append_assoc] using h2

theorem unmarshal_u32be (n : Nat) (body : List Nat) (h : n ≤ maxUint32) :
    unmarshal (u32be n ++ body) = if n = 0 then .ok [] else readLoop n body := by
  have h' : n < 4294967296 := by
    simp only [maxUint32] at h; omega
  have hval : ((n / 16777216 % 256 * 256 + n / 65536 % 256) * 256 + n / 256 % 256) * 256
      + n % 256 = n := by omega
  simp only [u32be, List.cons_append, List.nil_append, unmarshal]
  rw [hval]

/-- Claim C2 counterexample: the round trip fails as soon as the final
frame of a non-empty message is empty.  For the one-frame message whose
frame is empty, `marshal` produces the expected wire bytes, but
`unmarshal` returns the `io.EOF` error of `bytes.Reader.Read` (the reader
is already at the end of the buffer when the empty frame body is read)
instead of the original message. -/
theorem frames_roundtrip_fails_on_empty_last_frame :
    marshal [([] : List Nat)] = .ok [0, 0, 0, 1, 0, 0, 0, 0] ∧
    unmarshal [0, 0, 0, 1, 0, 0, 0, 0] = .error .eofErr ∧
    unmarshal [0, 0, 0, 1, 0, 0, 0, 0] ≠ .ok [([] : List Nat)] := by
  refine ⟨rfl, rfl, ?_⟩
  intro hx
  rw [show unmarshal [0, 0, 0, 1, 0, 0, 0, 0] = .error .eofErr from rfl] at hx
  exact Except.noConfusion hx

/-- Claim C2 (amended): for every message, i.e. every list of byte frames
with frame count and each frame length at most `2^32 - 1`, whose final
frame (if the message is non-empty) is itself non-empty, `unmarshal`
applied to the output of `marshal` succeeds and yields the original frame
list; the wire form is a big-endian u32 frame count followed, for each
frame, by a big-endian u32 length and that many bytes.  (The amendment
excludes messages ending in an empty frame: there `unmarshal` fails with
`io.EOF`, as the counterexample shows.) -/
theorem frames_marshal_unmarshal_roundtrip (fs : List (List Nat))
    (hcount : fs.length ≤ maxUint32)
    (hlen : ∀ f ∈ fs, f.length ≤ maxUint32)
    (hlast : lastFrameNonempty fs = true) :
    marshal fs = .ok (specWireForm fs) ∧ unmarshal (specWireForm fs) = .ok fs := by
  constructor
  · simp [marshal, Nat.not_lt.mpr hcount, writeFrames_eq fs hlen, exceptBind_ok,
      specWireForm]
  · rw [specWireForm, unmarshal_u32be _ _ hcount]
    cases fs with
    | nil => simp
    | cons f rest =>
      rw [if_neg (by simp)]
      exact readLoop_encode (f :: rest) hlen hlast

/-- Witness for the amended claim C2 at a concrete two-frame message. -/
theorem frames_marshal_unmarshal_roundtrip_witness :
    marshal [[7], [1, 2]] = .ok (specWireForm [[7], [1, 2]]) ∧
    unmarshal (specWireForm [[7], [1, 2]]) = .ok [[7], [1, 2]] :=
  frames_marshal_unmarshal_roundtrip [[7], [1, 2]] (by decide) (by decide) (by decide)

/-! ## Round-robin RPC exchange (`broker/exchanges/rpc/roundrobin`)

Go strings are byte strings; application names and method names are kept
as `List Nat` byte lists throughout the broker model.  Endpoints are
identified by a numeric id (the Go code compares `rpc.Endpoint` interface
values by identity).
-/

/-- Go strings and byte slices of the broker, as byte lists. -/
abbrev GoStr := List Nat

/-- ASCII bytes of a Lean string literal, for Go string constants. -/
def strBytes (s : String) : GoStr := s.data.map Char.toNat

/-- The fixed protocol-version token `CDR#RPC@01` (`Protocol`,
`FrameHeader`). -/
def protocolHeader : GoStr := strBytes "CDR#RPC@01"

/-- `appRecord`: name, owning endpoint, exported methods, and the
outbound-request table `requestReceivers` mapping a request id to the
provider the request was dispatched to.  The Go table stores a pointer to
the provider's `appRecord`; the only fields ever read through it are the
immutable `rawName`/`name` and `endpoint`, so the model stores that
pair. -/
structure AppRecord where
  name : GoStr
  endpoint : Nat
  methods : List GoStr
  requestReceivers : List (Nat × GoStr × Nat)
  deriving Repr, DecidableEq

/-- `providersRecord`: the round-robin ring (each member's name and
endpoint) and the cursor `lastUsed`. -/
structure ProvidersRecord where
  providers : List (GoStr × Nat)
  lastUsed : Nat
  deriving Repr, DecidableEq

/-- `Balancer`: app records by name, provider rings by method, and the
endpoint index used for mass unregistration. -/
structure Balancer where
  apps : List (GoStr × AppRecord)
  providers : List (GoStr × ProvidersRecord)
  appsByEndpoint : List (Nat × List GoStr)
  deriving Repr, DecidableEq

/-- Update the value stored under a key of an association list (Go map
assignment for a key already present). -/
def setA {κ α : Type} [BEq κ] (l : List (κ × α)) (k : κ) (v : α) : List (κ × α) :=
  l.map (fun p => if p.1 == k then (k, v) else p)

/-- `providersRecord.nextProvider`: advance the cursor by one modulo the
ring size and return the ring member at the new cursor. -/
def nextProvider (r : ProvidersRecord) : (GoStr × Nat) × ProvidersRecord :=
  let i := (r.lastUsed + 1) % r.providers.length
  (r.providers.getD i ([], 0), { r with lastUsed := i })

/-- `Balancer.registerApp`: create the app record on first contact and
index it under its endpoint; a later contact returns the balancer
unchanged. -/
def registerApp (b : Balancer) (appName : GoStr) (srcEndpoint : Nat) : Balancer :=
  match b.apps.lookup appName with
  | some _ => b
  | none =>
    let app : AppRecord :=
      { name := appName, endpoint := srcEndpoint, methods := [], requestReceivers := [] }
    let byEp :=
      match b.appsByEndpoint.lookup srcEndpoint with
      | some set => setA b.appsByEndpoint srcEndpoint (appName :: set)
      | none => (srcEndpoint, [appName]) :: b.appsByEndpoint
    { b with apps := (appName, app) :: b.apps, appsByEndpoint := byEp }

/-- `Balancer.regOutboundRequest`: record `sender × reqId → receiver`,
unless the sender or the receiver has no record or the request id is
already registered, in which case nothing changes. -/
def regOutboundRequest (b : Balancer) (sender : GoStr) (reqId : Nat)
    (receiver : GoStr) : Balancer :=
  match b.apps.lookup sender with
  | none => b
  | some senderApp =>
    match b.apps.lookup receiver with
    | none => b
    | some receiverApp =>
      if (senderApp.requestReceivers.lookup reqId).isSome then b
      else
        { b with
          apps := setA b.apps sender
            { senderApp with
              requestReceivers :=
                (reqId, receiverApp.name, receiverApp.endpoint) ::
                  senderApp.requestReceivers } }

/-- `Balancer.unregOutboundRequest`: delete the outbound mapping for
`sender × reqId` (a no-op deletion when absent, like Go `delete`). -/
def unregOutboundRequest (b : Balancer) (sender : GoStr) (reqId : Nat) : Balancer :=
  match b.apps.lookup sender with
  | none => b
  | some app =>
    { b with
      apps := setA b.apps sender
        { app with
          requestReceivers := app.requestReceivers.filter (fun p => p.1 != reqId) } }

/-- `binary.Read` of a big-endian `uint16` from a byte slice: fails with
fewer than two bytes, otherwise reads the first two. -/
def readU16BE : GoStr → Option Nat
  | b0 :: b1 :: _ => some (b0 * 256 + b1)
  | _ => none

/-- Network emissions of the exchange, one constructor per endpoint
dispatch method plus the synthesized rejection reply sent straight back
on the requester's own connection. -/
inductive Send where
  | request (endpoint : Nat) (receiver : GoStr) (frames : List GoStr)
  | interrupt (endpoint : Nat) (receiver : GoStr) (frames : List GoStr)
  | reply (endpoint : Nat) (receiver : GoStr) (frames : List GoStr)
  | rejectReply (receiver : GoStr) (frames : List GoStr)
  deriving Repr, DecidableEq

/-- The REPLY frames synthesized by the request `rejectFunc` of the
websocket endpoint (`endpoint.go`): empty receiver slot, header, REPLY
type, then `msg[4]`, the return code and the reason bytes.  (`msg[4]` is
the method frame of the incoming REQUEST; its request-id frame is
`msg[3]`.) -/
def requestRejectFrames (msg : List GoStr) (code : Nat) (reason : GoStr) : List GoStr :=
  [[], protocolHeader, [6], msg.getD 4 [], [code], reason]

/-- `Balancer.HandleRequest`.  `sender` is the connection identity the
message arrived on (`msg.Sender()`), `msg` the eight raw REQUEST frames,
and `dispatchErr` the oracle outcome of
`app.endpoint.DispatchRequest` (`none` = delivered).  Returns the new
balancer state and the network emissions in order. -/
def handleRequest (b : Balancer) (sender : GoStr) (msg : List GoStr)
    (srcEndpoint : Nat) (dispatchErr : Option GoStr) : Balancer × List Send :=
  let b1 := registerApp b sender srcEndpoint
  match b1.providers.lookup (msg.getD 4 []) with
  | some record =>
    let (app, record2) := nextProvider record
    let b2 := { b1 with providers := setA b1.providers (msg.getD 4 []) record2 }
    match readU16BE (msg.getD 3 []) with
    | none => (b2, [])
    | some reqId =>
      let b3 := regOutboundRequest b2 sender reqId app.1
      match dispatchErr with
      | none => (b3, [Send.request app.2 app.1 (msg.set 0 sender)])
      | some e =>
        (b3, [Send.request app.2 app.1 (msg.set 0 sender),
          Send.rejectReply sender
            (requestRejectFrames msg 255 (strBytes "Failed to dispatch request: " ++ e))])
  | none =>
    (b1, [Send.rejectReply sender
      (requestRejectFrames msg 254 (strBytes "No method available"))])

/-- `Balancer.HandleInterrupt`: parse the request id, look up the
recorded receiver of `(sender, reqId)` and forward to it; in every other
case do nothing.  The routing table is never modified. -/
def handleInterrupt (b : Balancer) (sender : GoStr) (msg : List GoStr) : List Send :=
  match readU16BE (msg.getD 3 []) with
  | none => []
  | some reqId =>
    match b.apps.lookup sender with
    | none => []
    | some app =>
      match app.requestReceivers.lookup reqId with
      | none => []
      | some (rname, rep) => [Send.interrupt rep rname (msg.set 0 sender)]

/-- `Balancer.HandleReply`: if the receiver named in frame 0 has an app
record, parse the request id, delete the outbound mapping for
`(receiver, reqId)` and relay the reply to the receiver's endpoint;
otherwise drop the message with the table unchanged. -/
def handleReply (b : Balancer) (msg : List GoStr) : Balancer × List Send :=
  let receiver := msg.getD 0 []
  match b.apps.lookup receiver with
  | none => (b, [])
  | some app =>
    match readU16BE (msg.getD 3 []) with
    | none => (b, [])
    | some reqId =>
      (unregOutboundRequest b receiver reqId,
        [Send.reply app.endpoint receiver (msg.set 0 [])])

theorem registerApp_noop (b : Balancer) (n : GoStr) (ep : Nat)
    (h : (b.apps.lookup n).isSome) : registerApp b n ep = b := by
  unfold registerApp
  cases hx : b.apps.lookup n with
  | some a => rfl
  | none => rw [hx] at h; exact absurd h (by simp)

theorem regOutboundRequest_noop (b : Balancer) (sender receiver : GoStr) (reqId : Nat)
    (sApp : AppRecord) (hs : b.apps.lookup sender = some sApp)
    (hm : (sApp.requestReceivers.lookup reqId).isSome) :
    regOutboundRequest b sender reqId receiver = b := by
  simp only [regOutboundRequest, hs]
  cases hr : b.apps.lookup receiver with
  | none => rfl
  | some rApp => simp only [hm, if_true]

theorem handleInterrupt_eq (b : Balancer) (sender : GoStr) (imsg : List GoStr)
    (reqId : Nat) (hid : readU16BE (imsg.getD 3 []) = some reqId) :
    handleInterrupt b sender imsg =
      match b.apps.lookup sender with
      | none => []
      | some app =>
        match app.requestReceivers.lookup reqId with
        | none => []
        | some (rn, rep) => [Send.interrupt rep rn (imsg.set 0 sender)] := by
  unfold handleInterrupt
  rw [hid]

theorem handleReply_eq (b : Balancer) (rmsg : List GoStr)
    (rreqId : Nat) (hrid : readU16BE (rmsg.getD 3 []) = some rreqId) :
    handleReply b rmsg =
      match b.apps.lookup (rmsg.getD 0 []) with
      | none => (b, [])
      | some app =>
        (unregOutboundRequest b (rmsg.getD 0 []) rreqId,
         [Send.reply app.endpoint (rmsg.getD 0 []) (rmsg.set 0 [])]) := by
  simp only [handleReply]
  cases hr : b.apps.lookup (rmsg.getD 0 []) with
  | none => rfl
  | some app => rw [hrid]

/-- Claim C4 evaluation at the failing input.  An empty balancer receives
a valid REQUEST whose request-id frame is `[0, 1]` and whose method
`cider.any.bash` has no providers.  The synthesized rejection does carry
return code 254 and return value `"No method available"`, but the frame
in the REPLY's request-id slot is the REQUEST's method frame `msg[4]`
(the bytes of `cider.any.bash`), not its request-id frame `msg[3]`. -/
theorem no_provider_reject_uses_method_frame :
    (handleRequest { apps := [], providers := [], appsByEndpoint := [] }
        (strBytes "client")
        [[], protocolHeader, [2], [0, 1], strBytes "cider.any.bash", [9], [], []]
        1 none).2 =
      [Send.rejectReply (strBytes "client")
        [[], protocolHeader, [6], strBytes "cider.any.bash", [254],
          strBytes "No method available"]] ∧
    [[], protocolHeader, [2], [0, 1], strBytes "cider.any.bash",
        [9], ([] : GoStr), []].getD 3 [] = [0, 1] ∧
    strBytes "cider.any.bash" ≠ [0, 1] := by
  refine ⟨rfl, rfl, ?_⟩
  decide

/-- Claim C6 counterexample: a REPLY whose outbound mapping does not
exist is still relayed.  In a balancer that knows requester `S` (endpoint
7) but records no outbound request for it, a REPLY addressed to `S` with
request id 5 is dispatched to `S`'s endpoint even though
`requestReceivers` holds no entry for id 5 — the claim says it should be
dropped. -/
theorem reply_relayed_without_mapping :
    (AppRecord.requestReceivers
        { name := strBytes "S", endpoint := 7, methods := [],
          requestReceivers := [] }).lookup 5 = none ∧
    (handleReply
        { apps := [(strBytes "S",
            { name := strBytes "S", endpoint := 7, methods := [],
              requestReceivers := [] })],
          providers := [], appsByEndpoint := [(7, [strBytes "S"])] }
        [strBytes "S", protocolHeader, [6], [0, 5], [0], []]).2 ≠ [] := by
  refine ⟨rfl, ?_⟩
  intro hx
  exact List.noConfusion hx

/-- Claim C6 (amended): an INTERRUPT arriving for requester `sender` and
request id `reqId` is relayed (to the recorded provider's endpoint) iff
the outbound mapping for `(sender, reqId)` exists at that moment, and the
routing table is never modified by interrupt handling; a REPLY is relayed
iff the *app record* of its receiver exists — even when the outbound
mapping for that request id is absent — and relaying deletes whatever
mapping exists for `(receiver, reqId)`; a REPLY whose receiver has no app
record is dropped silently with the table unchanged. -/
theorem interrupt_and_reply_relay (b : Balancer) (sender : GoStr)
    (imsg rmsg : List GoStr) (reqId rreqId : Nat)
    (hid : readU16BE (imsg.getD 3 []) = some reqId)
    (hrid : readU16BE (rmsg.getD 3 []) = some rreqId) :
    (match b.apps.lookup sender with
     | none => handleInterrupt b sender imsg = []
     | some app =>
       match app.requestReceivers.lookup reqId with
       | none => handleInterrupt b sender imsg = []
       | some (rn, rep) =>
         handleInterrupt b sender imsg = [Send.interrupt rep rn (imsg.set 0 sender)]) ∧
    (match b.apps.lookup (rmsg.getD 0 []) with
     | none => handleReply b rmsg = (b, [])
     | some app =>
       handleReply b rmsg =
         (unregOutboundRequest b (rmsg.getD 0 []) rreqId,
          [Send.reply app.endpoint (rmsg.getD 0 []) (rmsg.set 0 [])])) := by
  constructor
  · have he := handleInterrupt_eq b sender imsg reqId hid
    cases hs : b.apps.lookup sender with
    | none => simp only [he, hs]
    | some app =>
      cases hm : app.requestReceivers.lookup reqId with
      | none => simp only [he, hs, hm]
      | some pr =>
        obtain ⟨rn, rep⟩ := pr
        simp only [he, hs, hm]
  · have he := handleReply_eq b rmsg rreqId hrid
    cases hr : b.apps.lookup (rmsg.getD 0 []) with
    | none => simp only [he, hr]
    | some app => simp only [he, hr]

/-- A balancer that knows requester `S` at endpoint 7 with a recorded
outbound mapping `5 ↦ (W, endpoint 9)`, used to exercise the relay
rules on concrete input. -/
def relayDemoBalancer : Balancer :=
  { apps := [(strBytes "S",
      { name := strBytes "S", endpoint := 7, methods := [],
        requestReceivers := [(5, strBytes "W", 9)] })],
    providers := [], appsByEndpoint := [(7, [strBytes "S"])] }

/-- Witness for the amended claim C6: in `relayDemoBalancer` the
INTERRUPT for id 5 from `S` is relayed to `W` at endpoint 9, and the
REPLY addressed to `S` is relayed to endpoint 7 while deleting the
mapping. -/
theorem interrupt_and_reply_relay_witness :
    handleInterrupt relayDemoBalancer (strBytes "S")
        [[], protocolHeader, [3], [0, 5]] =
      [Send.interrupt 9 (strBytes "W")
        ([[], protocolHeader, [3], [0, 5]].set 0 (strBytes "S"))] ∧
    handleReply relayDemoBalancer
        [strBytes "S", protocolHeader, [6], [0, 5], [0], []] =
      (unregOutboundRequest relayDemoBalancer (strBytes "S") 5,
       [Send.reply 7 (strBytes "S")
         ([strBytes "S", protocolHeader, [6], [0, 5], [0], []].set 0 [])]) := by
  have h := interrupt_and_reply_relay relayDemoBalancer (strBytes "S")
    [[], protocolHeader, [3], [0, 5]]
    [strBytes "S", protocolHeader, [6], [0, 5], [0], []] 5 5 rfl rfl
  exact h

/-- Claim C10: when a sender issues a REQUEST that reuses a request id
`reqId` still recorded in its outbound table, the exchange nevertheless
forwards the request to the freshly selected round-robin provider
(`nextProvider` advances the ring cursor and the dispatch targets the
member it returns), while the recorded outbound mapping for
`(sender, reqId)` is left unchanged, so interrupts and reply bookkeeping
still target the provider of the first request. -/
theorem request_id_reuse_forwards_and_keeps_mapping
    (b : Balancer) (sender : GoStr) (msg : List GoStr) (ep reqId : Nat)
    (sApp : AppRecord) (r0 : GoStr × Nat) (rec : ProvidersRecord)
    (hid : readU16BE (msg.getD 3 []) = some reqId)
    (hs : b.apps.lookup sender = some sApp)
    (hm : sApp.requestReceivers.lookup reqId = some r0)
    (hprov : b.providers.lookup (msg.getD 4 []) = some rec) :
    handleRequest b sender msg ep none =
      ({ b with providers := setA b.providers (msg.getD 4 []) (nextProvider rec).2 },
       [Send.request (nextProvider rec).1.2 (nextProvider rec).1.1 (msg.set 0 sender)]) ∧
    ({ b with
        providers := setA b.providers (msg.getD 4 []) (nextProvider rec).2
      } : Balancer).apps.lookup sender = some sApp ∧
    sApp.requestReceivers.lookup reqId = some r0 := by
  have hb1 : registerApp b sender ep = b :=
    registerApp_noop _ _ _ (by simp [hs])
  refine ⟨?_, hs, hm⟩
  rcases hnp : nextProvider rec with ⟨app, record2⟩
  have hreg : regOutboundRequest
      { b with providers := setA b.providers (msg.getD 4 []) record2 }
      sender reqId app.1 =
      { b with providers := setA b.providers (msg.getD 4 []) record2 } :=
    regOutboundRequest_noop _ sender app.1 reqId sApp hs (by simp [hm])
  simp only [handleRequest, hb1, hprov, hid, hnp, hreg]

/-- A balancer with requester `S` (mapping `5 ↦ (W1, 9)` still recorded)
and a two-member ring `W1, W2` for method `m`, cursor at 0. -/
def reuseDemoBalancer : Balancer :=
  { apps := [(strBytes "S",
      { name := strBytes "S", endpoint := 7, methods := [],
        requestReceivers := [(5, strBytes "W1", 9)] }),
      (strBytes "W1",
      { name := strBytes "W1", endpoint := 9, methods := [strBytes "m"],
        requestReceivers := [] }),
      (strBytes "W2",
      { name := strBytes "W2", endpoint := 10, methods := [strBytes "m"],
        requestReceivers := [] })],
    providers := [(strBytes "m",
      { providers := [(strBytes "W1", 9), (strBytes "W2", 10)], lastUsed := 0 })],
    appsByEndpoint := [(7, [strBytes "S"]), (9, [strBytes "W1"]), (10, [strBytes "W2"])] }

/-- Witness for claim C10: `S` reuses request id 5 (still mapped to
`W1`); the new REQUEST is forwarded to the freshly selected provider
`W2` at endpoint 10, and the mapping for id 5 still names `W1`. -/
theorem request_id_reuse_witness :
    handleRequest reuseDemoBalancer (strBytes "S")
        [[], protocolHeader, [2], [0, 5], strBytes "m", [1], [], []] 7 none =
      ({ reuseDemoBalancer with
          providers := setA reuseDemoBalancer.providers (strBytes "m")
            { providers := [(strBytes "W1", 9), (strBytes "W2", 10)], lastUsed := 1 } },
       [Send.request 10 (strBytes "W2")
         ([[], protocolHeader, [2], [0, 5], strBytes "m", [1], [], []].set 0
           (strBytes "S"))]) ∧
    (AppRecord.requestReceivers
      { name := strBytes "S", endpoint := 7, methods := [],
        requestReceivers := [(5, strBytes "W1", 9)] }).lookup 5 =
      some (strBytes "W1", 9) := by
  have h := request_id_reuse_forwards_and_keeps_mapping reuseDemoBalancer
    (strBytes "S") [[], protocolHeader, [2], [0, 5], strBytes "m", [1], [], []]
    7 5
    { name := strBytes "S", endpoint := 7, methods := [],
      requestReceivers := [(5, strBytes "W1", 9)] }
    (strBytes "W1", 9)
    { providers := [(strBytes "W1", 9), (strBytes "W2", 10)], lastUsed := 0 }
    rfl rfl rfl rfl
  exact ⟨h.1, h.2.2⟩

/-- `n` consecutive selections of `nextProvider` over an unchanged ring,
collecting the selected members in order (the selection a run of `n`
`HandleRequest` calls for one method performs when no registration or
unregistration intervenes). -/
def iterSelect (r : ProvidersRecord) : Nat → List (GoStr × Nat) × ProvidersRecord
  | 0 => ([], r)
  | n + 1 =>
    let p := nextProvider r
    let rest := iterSelect p.2 n
    (p.1 :: rest.1, rest.2)

/-- The ring indices visited by `n` selections on a ring of size `k`
starting from cursor `c`: `(c + 1 + j) % k` for `j = 0 .. n-1`. -/
def selIndices (k c n : Nat) : List Nat :=
  (List.range n).map (fun j => (c + 1 + j) % k)

theorem selIndices_succ (k c n : Nat) :
    selIndices k c (n + 1) = ((c + 1) % k) :: selIndices k ((c + 1) % k) n := by
  unfold selIndices
  rw [List.range_succ_eq_map, List.map_cons, List.map_map]
  congr 1
  apply List.map_congr_left
  intro j _
  show (c + 1 + (j + 1)) % k = ((c + 1) % k + 1 + j) % k
  rw [Nat.add_assoc ((c + 1) % k) 1 j, Nat.mod_add_mod]
  congr 1
  omega

theorem iterSelect_sel (n : Nat) : ∀ r : ProvidersRecord,
    (iterSelect r n).1 =
      (selIndices r.providers.length r.lastUsed n).map
        (fun i => r.providers.getD i ([], 0)) := by
  induction n with
  | zero => intro r; rfl
  | succ n ih =>
    intro r
    rw [selIndices_succ, List.map_cons]
    have hstep : (iterSelect r (n + 1)).1 =
        (nextProvider r).1 :: (iterSelect (nextProvider r).2 n).1 := rfl
    rw [hstep, ih (nextProvider r).2]
    rfl

theorem countP_range_mod (k r0 : Nat) (hk : 0 < k) (hr : r0 < k) :
    ∀ n, ((List.range n).countP (fun j => j % k == r0)) =
      n / k + (if r0 < n % k then 1 else 0) := by
  intro n
  induction n with
  | zero => simp
  | succ n ih =>
    rw [List.range_succ, List.countP_append, ih]
    have hdm : k * (n / k) + n % k = n := Nat.div_add_mod n k
    have hsk : n % k < k := Nat.mod_lt _ hk
    have hsingle : (List.countP (fun j => j % k == r0) [n]) =
        if n % k = r0 then 1 else 0 := by
      simp only [List.countP_cons, List.countP_nil, Nat.zero_add]
      by_cases hb : n % k = r0 <;> simp [hb]
    rw [hsingle]
    rcases Nat.lt_or_ge (n % k + 1) k with hlt | hge
    · have hqr : (n + 1) / k = n / k ∧ (n + 1) % k = n % k + 1 := by
        rw [Nat.div_mod_unique hk]
        refine ⟨?_, by omega⟩
        generalize k * (n / k) = t at hdm ⊢
        omega
      rw [hqr.1, hqr.2]
      split_ifs <;> omega
    · have hqr : (n + 1) / k = n / k + 1 ∧ (n + 1) % k = 0 := by
        rw [Nat.div_mod_unique hk]
        refine ⟨?_, by omega⟩
        rw [Nat.mul_succ]
        generalize k * (n / k) = t at hdm ⊢
        omega
      rw [hqr.1, hqr.2]
      split_ifs <;> omega

theorem mod_shift_iff (k a p : Nat) (hk : 0 < k) (ha : a < k) (hp : p < k) (j : Nat) :
    ((a + j) % k = p) ↔ (j % k = (p + (k - a)) % k) := by
  constructor
  · intro h
    have h2 : (a + j) + (k - a) = j + k := by omega
    calc j % k = (j + k) % k := (Nat.add_mod_right j k).symm
    _ = ((a + j) + (k - a)) % k := by rw [h2]
    _ = ((a + j) % k + (k - a)) % k := (Nat.mod_add_mod _ _ _).symm
    _ = (p + (k - a)) % k := by rw [h]
  · intro h
    have h4 : a + (p + (k - a)) = p + k := by omega
    calc (a + j) % k = (a + j % k) % k := (Nat.add_mod_mod _ _ _).symm
    _ = (a + (p + (k - a)) % k) % k := by rw [h]
    _ = (a + (p + (k - a))) % k := Nat.add_mod_mod _ _ _
    _ = (p + k) % k := by rw [h4]
    _ = p % k := Nat.add_mod_right p k
    _ = p := Nat.mod_eq_of_lt hp

theorem selIndices_count (k c p n : Nat) (hk : 0 < k) (hp : p < k) :
    (selIndices k c n).count p =
      n / k +
        (if (p + (k - (c + 1) % k)) % k < n % k then 1 else 0) := by
  have ha : (c + 1) % k < k := Nat.mod_lt _ hk
  have hsel : selIndices k c n =
      (List.range n).map (fun j => ((c + 1) % k + j) % k) := by
    unfold selIndices
    congr 1
    funext j
    rw [Nat.mod_add_mod]
  rw [hsel, List.count_eq_countP, List.countP_map]
  simp only [Function.comp_def]
  have hcong : ∀ j ∈ List.range n,
      ((((c + 1) % k + j) % k == p)) ↔ ((j % k == (p + (k - (c + 1) % k)) % k)) := by
    intro j _
    simp only [beq_iff_eq]
    exact mod_shift_iff k ((c + 1) % k) p hk ha hp j
  rw [List.countP_congr hcong]
  exact countP_range_mod k _ hk (Nat.mod_lt _ hk) n

theorem ceil_div_of_mod_pos (n k : Nat) (hk : 0 < k) (hpos : 0 < n % k) :
    (n + k - 1) / k = n / k + 1 := by
  have hdm : k * (n / k) + n % k = n := Nat.div_add_mod n k
  have hsk : n % k < k := Nat.mod_lt _ hk
  have h : (n + k - 1) / k = n / k + 1 ∧ (n + k - 1) % k = n % k - 1 := by
    rw [Nat.div_mod_unique hk]
    constructor
    · rw [Nat.mul_succ]
      generalize k * (n / k) = t at hdm ⊢
      omega
    · omega
  exact h.1

theorem ceil_div_of_mod_eq_zero (n k : Nat) (hk : 0 < k) (hpos : n % k = 0) :
    (n + k - 1) / k = n / k := by
  have hdm : k * (n / k) + n % k = n := Nat.div_add_mod n k
  have h : (n + k - 1) / k = n / k ∧ (n + k - 1) % k = k - 1 := by
    rw [Nat.div_mod_unique hk]
    constructor
    · generalize k * (n / k) = t at hdm ⊢
      omega
    · omega
  exact h.1

/-- Claim C3: for a fixed ring of `k` providers, over any `n` consecutive
selections with no registrations or unregistrations in between, the
cursor advances by `(cursor + 1) % k` on every selection, the `j`-th
selection is the ring member at index `(cursor + 1 + j) % k`, and each
ring member is selected either `⌊n/k⌋` or `⌈n/k⌉` times (`⌈n/k⌉` written
as `(n + k - 1) / k`).  The `Nodup` hypothesis is the balancer invariant
that an app sits in a ring at most once (duplicate registration is
rejected). -/
theorem roundrobin_fair (r : ProvidersRecord) (n p : Nat)
    (hk : 0 < r.providers.length) (hp : p < r.providers.length)
    (hnd : r.providers.Nodup) :
    ((nextProvider r).2.lastUsed = (r.lastUsed + 1) % r.providers.length) ∧
    ((iterSelect r n).1 =
      (selIndices r.providers.length r.lastUsed n).map
        (fun i => r.providers.getD i ([], 0))) ∧
    ((iterSelect r n).1.count (r.providers.getD p ([], 0)) =
        n / r.providers.length ∨
      (iterSelect r n).1.count (r.providers.getD p ([], 0)) =
        (n + r.providers.length - 1) / r.providers.length) := by
  refine ⟨rfl, iterSelect_sel n r, ?_⟩
  rw [iterSelect_sel n r, List.count_eq_countP, List.countP_map]
  simp only [Function.comp_def]
  have hmem : ∀ i ∈ selIndices r.providers.length r.lastUsed n,
      i < r.providers.length := by
    intro i hi
    unfold selIndices at hi
    obtain ⟨j, _, hj⟩ := List.mem_map.mp hi
    rw [← hj]
    exact Nat.mod_lt _ hk
  have hcong : ∀ i ∈ selIndices r.providers.length r.lastUsed n,
      ((r.providers.getD i ([], 0) == r.providers.getD p ([], 0))) ↔ ((i == p)) := by
    intro i hi
    have hik := hmem i hi
    simp only [beq_iff_eq]
    rw [List.getD_eq_getElem r.providers ([], 0) hik,
      List.getD_eq_getElem r.providers ([], 0) hp]
    exact hnd.getElem_inj_iff
  rw [List.countP_congr hcong]
  rw [← List.count_eq_countP,
    selIndices_count r.providers.length r.lastUsed p n hk hp]
  by_cases hb :
      (p + (r.providers.length - (r.lastUsed + 1) % r.providers.length)) %
        r.providers.length < n % r.providers.length
  · right
    rw [if_pos hb]
    have hpos : 0 < n % r.providers.length := Nat.lt_of_le_of_lt (Nat.zero_le _) hb
    exact (ceil_div_of_mod_pos n r.providers.length hk hpos).symm
  · left
    rw [if_neg hb, Nat.add_zero]

/-- A two-member round-robin ring with cursor 0, for the fairness
witness. -/
def rrDemoRing : ProvidersRecord :=
  { providers := [(strBytes "W1", 9), (strBytes "W2", 10)], lastUsed := 0 }

/-- Witness for claim C3: on the two-member ring, after five selections
member 0 (`W1`) is selected `⌊5/2⌋ = 2` or `⌈5/2⌉ = 3` times, the
selections list the members at indices `(0 + 1 + j) % 2`, and the cursor
advances mod 2. -/
theorem roundrobin_fair_witness :
    ((nextProvider rrDemoRing).2.lastUsed =
      (rrDemoRing.lastUsed + 1) % rrDemoRing.providers.length) ∧
    ((iterSelect rrDemoRing 5).1 =
      (selIndices rrDemoRing.providers.length rrDemoRing.lastUsed 5).map
        (fun i => rrDemoRing.providers.getD i ([], 0))) ∧
    ((iterSelect rrDemoRing 5).1.count (rrDemoRing.providers.getD 0 ([], 0)) =
        5 / rrDemoRing.providers.length ∨
      (iterSelect rrDemoRing 5).1.count (rrDemoRing.providers.getD 0 ([], 0)) =
        (5 + rrDemoRing.providers.length - 1) / rrDemoRing.providers.length) := by
  have h := roundrobin_fair rrDemoRing 5 0 (by decide) (by decide) (by decide)
  exact h

/-! ## Websocket endpoint message handling (`transports/websocket/rpc/endpoint.go`)

`handleConnection` loops `frames.C.Receive` / `handleMessage` until a
receive error and only then returns; `handleMessage` dispatches one raw
message to the exchange after sanity checks, or drops it with a warning
log.  The model maps a connection's received-message sequence to the
exchange invocations made, in order.
-/

/-- One exchange invocation (or heartbeat notification) made by
`handleMessage`. -/
inductive EAction where
  | registerMethod (app method : GoStr)
  | unregisterMethod (app method : GoStr)
  | request (app : GoStr) (msg : List GoStr)
  | interrupt (app : GoStr) (msg : List GoStr)
  | progress (app : GoStr) (msg : List GoStr)
  | streamFrame (app : GoStr) (msg : List GoStr)
  | reply (app : GoStr) (msg : List GoStr)
  | pong
  deriving Repr, DecidableEq

/-- `Endpoint.handleMessage`: the three sanity checks (frame count,
header token, one-byte type frame), then the per-type frame validation;
`none` means the message is dropped with a warning and nothing reaches
the exchange.  The Go function never closes the connection. -/
def handleMessage (appName : GoStr) (msg : List GoStr) : Option EAction :=
  if msg.length < 3 then none
  else if !(msg.getD 1 [] == protocolHeader) then none
  else if (msg.getD 2 []).length ≠ 1 then none
  else
    match (msg.getD 2 []).getD 0 0 with
    | 0 =>
      if msg.length ≠ 4 then none
      else if (msg.getD 0 []).length ≠ 0 then none
      else if (msg.getD 3 []).length = 0 then none
      else some (.registerMethod appName (msg.getD 3 []))
    | 1 =>
      if msg.length ≠ 4 then none
      else if (msg.getD 0 []).length ≠ 0 then none
      else if (msg.getD 3 []).length = 0 then none
      else some (.unregisterMethod appName (msg.getD 3 []))
    | 2 =>
      if msg.length ≠ 8 then none
      else if (msg.getD 0 []).length ≠ 0 then none
      else if (msg.getD 3 []).length ≠ 2 then none
      else if (msg.getD 4 []).length = 0 then none
      else if (msg.getD 5 []).length = 0 then none
      else if (msg.getD 6 []).length ≠ 0 ∧ (msg.getD 6 []).length ≠ 2 then none
      else if (msg.getD 7 []).length ≠ 0 ∧ (msg.getD 7 []).length ≠ 2 then none
      else some (.request appName msg)
    | 3 =>
      if msg.length ≠ 4 then none
      else if (msg.getD 0 []).length ≠ 0 then none
      else if (msg.getD 3 []).length ≠ 2 then none
      else some (.interrupt appName msg)
    | 4 =>
      if msg.length ≠ 4 then none
      else if (msg.getD 0 []).length = 0 then none
      else if (msg.getD 3 []).length ≠ 2 then none
      else some (.progress appName msg)
    | 5 =>
      if msg.length ≠ 5 then none
      else if (msg.getD 0 []).length = 0 then none
      else if (msg.getD 3 []).length ≠ 2 then none
      else if (msg.getD 4 []).length = 0 then none
      else some (.streamFrame appName msg)
    | 6 =>
      if msg.length ≠ 6 then none
      else if (msg.getD 0 []).length = 0 then none
      else if (msg.getD 3 []).length ≠ 2 then none
      else if (msg.getD 4 []).length ≠ 1 then none
      else some (.reply appName msg)
    | 8 =>
      if msg.length ≠ 3 then none
      else if (msg.getD 0 []).length ≠ 0 then none
      else some .pong
    | _ => none

/-- The receive loop of `handleConnection`: each received message is
passed to `handleMessage` in order; dropping a message never stops the
loop, so the exchange sees the actions of every valid message. -/
def handleConnMessages (appName : GoStr) (msgs : List (List GoStr)) : List EAction :=
  msgs.filterMap (handleMessage appName)

/-- Claim C7 counterexample: a message whose header frame is not the
protocol token is merely dropped; the connection keeps going and the
following REGISTER message is still dispatched to the exchange, where
the claim says the connection is closed and nothing further is
processed. -/
theorem bad_header_message_only_dropped :
    strBytes "WRONG" ≠ protocolHeader ∧
    handleMessage (strBytes "app")
      [[], strBytes "WRONG", [0], strBytes "m"] = none ∧
    handleConnMessages (strBytes "app")
      [[[], strBytes "WRONG", [0], strBytes "m"],
       [[], protocolHeader, [0], strBytes "m"]] =
      [EAction.registerMethod (strBytes "app") (strBytes "m")] := by
  refine ⟨by decide, rfl, rfl⟩

/-- Claim C7 (amended): whenever the master endpoint receives a message
whose header frame differs from the fixed protocol-version token (or
whose frame count is below three, or whose type frame is not one byte),
that message is dropped without reaching the exchange, and the
connection keeps processing subsequent messages exactly as if the
invalid message had not arrived; the connection is not closed. -/
theorem invalid_message_dropped_connection_continues
    (appName : GoStr) (msg : List GoStr) (rest : List (List GoStr))
    (h : msg.length < 3 ∨ msg.getD 1 [] ≠ protocolHeader ∨
      (msg.getD 2 []).length ≠ 1) :
    handleMessage appName msg = none ∧
    handleConnMessages appName (msg :: rest) = handleConnMessages appName rest := by
  have hm : handleMessage appName msg = none := by
    unfold handleMessage
    rcases h with h | h | h
    · rw [if_pos h]
    · by_cases h1 : msg.length < 3
      · rw [if_pos h1]
      · rw [if_neg h1, if_pos (by simpa using h)]
    · by_cases h1 : msg.length < 3
      · rw [if_pos h1]
      · by_cases h2 : msg.getD 1 [] = protocolHeader
        · rw [if_neg h1, if_neg (by simpa using h2), if_pos h]
        · rw [if_neg h1, if_pos (by simpa using h2)]
  exact ⟨hm, by simp [handleConnMessages, List.filterMap_cons, hm]⟩

/-- Witness for the amended claim C7 at the concrete bad-header
message. -/
theorem invalid_message_dropped_witness :
    handleMessage (strBytes "app") [[], strBytes "WRONG", [0], strBytes "m"] = none ∧
    handleConnMessages (strBytes "app")
        [[[], strBytes "WRONG", [0], strBytes "m"],
         [[], protocolHeader, [0], strBytes "m"]] =
      handleConnMessages (strBytes "app")
        [[[], protocolHeader, [0], strBytes "m"]] :=
  invalid_message_dropped_connection_continues (strBytes "app")
    [[], strBytes "WRONG", [0], strBytes "m"]
    [[[], protocolHeader, [0], strBytes "m"]]
    (Or.inr (Or.inl (by decide)))

/-- The connection table of one websocket endpoint: identity to
connection id. -/
structure EndpointState where
  connections : List (GoStr × Nat)
  deriving Repr, DecidableEq

/-- `Endpoint.registerConnection`: reject (returning `false`, state
unchanged) when the identity is already in use; otherwise install the
connection. -/
def registerConnection (s : EndpointState) (identity : GoStr) (connId : Nat) :
    Bool × EndpointState :=
  if (s.connections.lookup identity).isSome then (false, s)
  else (true, { connections := (identity, connId) :: s.connections })

/-- `Endpoint.unregisterConnection`: drop the identity from the
connection table; the caller also invokes `exchange.UnregisterApp`. -/
def unregisterConnection (s : EndpointState) (identity : GoStr) : EndpointState :=
  { connections := s.connections.filter (fun p => p.1 != identity) }

/-- Observable effects of one `handleConnection` run. -/
inductive ConnEvent where
  | exchangeAction (a : EAction)
  | unregisterApp (identity : GoStr)
  deriving Repr, DecidableEq

/-- `Endpoint.handleConnection`: refuse when the endpoint is closing or
the identity header is empty; otherwise call `registerConnection`
*discarding its boolean result*, run the message loop, and on return
unregister the connection and cascade `UnregisterApp` to the exchange
(the deferred `unregisterConnection`). -/
def handleConnection (s : EndpointState) (closing : Bool) (identity : GoStr)
    (connId : Nat) (msgs : List (List GoStr)) : EndpointState × List ConnEvent :=
  if closing then (s, [])
  else if identity.isEmpty then (s, [])
  else
    let s1 := (registerConnection s identity connId).2
    let actions := (handleConnMessages identity msgs).map ConnEvent.exchangeAction
    let s2 := unregisterConnection s1 identity
    (s2, actions ++ [ConnEvent.unregisterApp identity])

/-- Claim C8 evaluation at the failing input.  Endpoint state already
maps identity `app` to connection 1.  A second connection (id 2)
presents the same identity: `registerConnection` does refuse it
(returns `false`, table unchanged), but `handleConnection` ignores that
result — the duplicate connection's REGISTER message is processed and
dispatched to the exchange, and when the duplicate's handler returns,
its deferred unregistration removes the identity from the table (cutting
off the original connection) and invokes `UnregisterApp app`, tearing
down the original app's registrations. -/
theorem duplicate_identity_connection_processed :
    (registerConnection { connections := [(strBytes "app", 1)] }
        (strBytes "app") 2).1 = false ∧
    (registerConnection { connections := [(strBytes "app", 1)] }
        (strBytes "app") 2).2 = { connections := [(strBytes "app", 1)] } ∧
    handleConnection { connections := [(strBytes "app", 1)] } false
        (strBytes "app") 2 [[[], protocolHeader, [0], strBytes "m"]] =
      ({ connections := [] },
       [ConnEvent.exchangeAction
          (EAction.registerMethod (strBytes "app") (strBytes "m")),
        ConnEvent.unregisterApp (strBytes "app")]) := by
  refine ⟨rfl, rfl, rfl⟩

/-! ## Slave builder (`slave/builder.go`, `data` package)

`Builder.Build` runs one job.  The filesystem, the VCS commands and the
child process are external collaborators and appear as oracle fields of
`BuildEnv`; argument validation (`BuildArgs.Validate`) is embedded in
full, including the `url.Parse` call it makes: scheme extraction
(`getscheme`), lower-casing of the scheme, query/fragment splitting,
authority parsing, and the malformed-percent-escape errors of
`unescape` — `Validate` fails with the wrapped parse error before the
scheme switch whenever `url.Parse` fails.  The `net/url` embedding
follows the Go releases contemporary with this repository (the vendored
`code.google.com` import paths date it to Go 1.2/1.3) and treats
strings as ASCII byte strings, one `Char` per byte. -/

/-- `data.BuildArgs`. -/
structure BuildArgs where
  Repository : String
  Script : String
  Env : List String
  Noop : Bool
  deriving Repr, DecidableEq

/-- Scheme characters: ASCII letters. -/
def schemeAlpha (c : Char) : Bool :=
  (('a' ≤ c) && (c ≤ 'z')) || (('A' ≤ c) && (c ≤ 'Z'))

/-- Scheme characters allowed after the first: digits, `+`, `-`, `.`. -/
def schemeDigitExt (c : Char) : Bool :=
  (('0' ≤ c) && (c ≤ '9')) || (c == '+') || (c == '-') || (c == '.')

/-- `ishex` of `net/url`. -/
def ishex (c : Char) : Bool :=
  (('0' ≤ c) && (c ≤ '9')) || (('a' ≤ c) && (c ≤ 'f')) ||
    (('A' ≤ c) && (c ≤ 'F'))

/-- The errors `url.Parse` can produce: `missing protocol scheme` from
`getscheme`, or an `EscapeError` (carrying the offending at-most-three
byte snippet) from `unescape` on the userinfo, path or fragment
component. -/
inductive URLError where
  | missingScheme
  | escapeError (snippet : List Char)
  deriving Repr, DecidableEq

/-- `split` of `net/url`: cut at the first occurrence of `c`; `cutc`
drops the separator from the second half. -/
def goSplit (s : List Char) (c : Char) (cutc : Bool) : List Char × List Char :=
  let pre := s.takeWhile (fun x => x ≠ c)
  if pre.length = s.length then (s, [])
  else if cutc then (pre, s.drop (pre.length + 1))
  else (pre, s.drop pre.length)

/-- The error scan of `unescape`: a `%` must be followed by two hex
digits; on failure the error carries `s[i:]` truncated to three bytes.
The encoding mode only governs `+` handling and never produces an
error, so one scan serves userinfo, path and fragment alike. -/
def unescapeErr : List Char → Option (List Char)
  | [] => none
  | c :: rest =>
    if c = '%' then
      match rest with
      | a :: b :: rest2 =>
        if ishex a && ishex b then unescapeErr rest2
        else some (List.take 3 (c :: rest))
      | _ => some (List.take 3 (c :: rest))
    else unescapeErr rest

/-- The error path of `parseAuthority`: without `@` the authority is
all host and nothing is unescaped; with `@`, the userinfo before the
first `@` is unescaped, split at the first `:` into username and
password when one is present. -/
def parseAuthorityErr (authority : List Char) : Option (List Char) :=
  if !(authority.contains '@') then none
  else
    let (userinfo, _) := goSplit authority '@' true
    if !(userinfo.contains ':') then unescapeErr userinfo
    else
      let (username, password) := goSplit userinfo ':' true
      match unescapeErr username with
      | some e => some e
      | none => unescapeErr password

/-- The loop of `net/url`'s `getscheme`: scan until `:` collecting
letter/digit/`+`/`-`/`.` characters; a digit-class character first, or
any other character, means the URL has no scheme (the remainder is the
whole input); a leading `:` is the `missing protocol scheme` error;
at `:` the collected prefix is the scheme and the remainder follows the
colon. -/
def getschemeLoop (s : List Char) (acc : List Char) :
    List Char → Except URLError (List Char × List Char)
  | [] => .ok ([], s)
  | c :: rest =>
    if schemeAlpha c then getschemeLoop s (acc ++ [c]) rest
    else if schemeDigitExt c then
      if acc.isEmpty then .ok ([], s) else getschemeLoop s (acc ++ [c]) rest
    else if c = ':' then
      if acc.isEmpty then .error .missingScheme else .ok (acc, rest)
    else .ok ([], s)

/-- `getscheme` of `net/url`: raw scheme (possibly empty when the URL
has none) and the remainder. -/
def getscheme (s : List Char) : Except URLError (List Char × List Char) :=
  getschemeLoop s [] s

/-- `strings.ToLower` on one ASCII character, as `url.Parse` applies to
the scheme. -/
def lowerChar (c : Char) : Char :=
  if (('A' ≤ c) && (c ≤ 'Z')) then Char.ofNat (c.toNat + 32) else c

/-- The tail of `parse` after the rootless-path early return: optional
`//authority` segment (split at the next `/`, separator kept), then the
path is unescaped.  Returns the scheme, which is all `Validate`
reads. -/
def parseTail (scheme rest1 : List Char) : Except URLError (List Char) :=
  if ((!scheme.isEmpty || !(List.isPrefixOf ['/', '/', '/'] rest1)) &&
      List.isPrefixOf ['/', '/'] rest1) then
    let (authority, rest2) := goSplit (rest1.drop 2) '/' false
    match parseAuthorityErr authority with
    | some snippet => .error (.escapeError snippet)
    | none =>
      match unescapeErr rest2 with
      | some snippet => .error (.escapeError snippet)
      | none => .ok scheme
  else
    match unescapeErr rest1 with
    | some snippet => .error (.escapeError snippet)
    | none => .ok scheme

/-- `parse(u, viaRequest := false)` of `net/url`, reduced to the scheme
`Validate` reads: the literal `*` is a path; `getscheme`, lower-case the
scheme, split off the query at the first `?`; a rootless path with a
non-empty scheme is opaque and returns immediately (nothing is
unescaped); otherwise the authority and path are parsed. -/
def parseNoFrag (u : List Char) : Except URLError (List Char) :=
  if u = ['*'] then .ok []
  else
    match getscheme u with
    | .error e => .error e
    | .ok (scheme0, rest0) =>
      let scheme := scheme0.map lowerChar
      let rest1 := (goSplit rest0 '?' true).1
      if !(List.isPrefixOf ['/'] rest1) && !scheme.isEmpty then .ok scheme
      else parseTail scheme rest1

/-- `url.Parse`: cut the fragment at the first `#`, parse the rest, and
unescape a non-empty fragment.  An error carries the string the
`url.Error` wrapper names: `parse` wraps its own (pre-fragment)
argument, the fragment unescape wraps the full input. -/
def urlParse (s : List Char) : Except (List Char × URLError) (List Char) :=
  let (u, frag) := goSplit s '#' true
  match parseNoFrag u with
  | .error e => .error (u, e)
  | .ok scheme =>
    if frag.isEmpty then .ok scheme
    else
      match unescapeErr frag with
      | some snippet => .error (s, .escapeError snippet)
      | none => .ok scheme

/-- A lower-case hex digit, for `strconv.Quote`'s byte escapes. -/
def hexLower (n : Nat) : Char :=
  if n < 10 then Char.ofNat (48 + n) else Char.ofNat (97 + n - 10)

/-- `strconv.Quote` on one character, on the ASCII range the broker's
byte strings inhabit: quote and backslash are backslash-escaped,
printable ASCII is literal, the standard control escapes apply, and any
other byte becomes `\xNN`. -/
def goQuoteChar (c : Char) : List Char :=
  if c = '"' || c = '\\' then ['\\', c]
  else if (' ' ≤ c) && (c ≤ '~') then [c]
  else if c = Char.ofNat 7 then ['\\', 'a']
  else if c = Char.ofNat 8 then ['\\', 'b']
  else if c = Char.ofNat 12 then ['\\', 'f']
  else if c = Char.ofNat 10 then ['\\', 'n']
  else if c = Char.ofNat 13 then ['\\', 'r']
  else if c = Char.ofNat 9 then ['\\', 't']
  else if c = Char.ofNat 11 then ['\\', 'v']
  else ['\\', 'x', hexLower (c.toNat / 16), hexLower (c.toNat % 16)]

/-- `strconv.Quote` on an ASCII byte string. -/
def goQuote (s : List Char) : String :=
  String.mk ('"' :: (s.map goQuoteChar).flatten ++ ['"'])

/-- The text of a failed `url.Parse`, as `url.Error` renders it:
`parse <rawurl>: <inner>`, the inner error being the `getscheme`
message or `invalid URL escape` with the quoted snippet. -/
def urlErrorText (rawurl : List Char) : URLError → String
  | .missingScheme => "parse " ++ String.mk rawurl ++ ": missing protocol scheme"
  | .escapeError snippet =>
    "parse " ++ String.mk rawurl ++ ": invalid URL escape " ++ goQuote snippet

/-- `data.BuildArgs.Validate`: non-empty repository and script; then
`url.Parse` of the repository — a parse failure is wrapped and returned
before the scheme switch — then the scheme must be one of `git+https`,
`git+ssh`, `git+file`, and every `env` element must contain `=`.
Returns the error text, `none` on success. -/
def validate (args : BuildArgs) : Option String :=
  if args.Repository = "" then some "BuildArgs.Validate: Repository is not set"
  else if args.Script = "" then some "BuildArgs.Validate: Script is not set"
  else
    match urlParse args.Repository.data with
    | .error (ru, e) =>
      some ("BuildArgs.Validate: " ++ urlErrorText ru e)
    | .ok s =>
      if String.mk s = "git+https" ∨ String.mk s = "git+ssh" ∨
          String.mk s = "git+file" then
        match args.Env.find? (fun kv => !(kv.data.contains '=')) with
        | some kv => some ("invalid key-value pair: " ++ kv)
        | none => none
      else
        some ("BuildArgs.Validate: unsupported repository URL scheme: " ++
          String.mk s)

/-- Channel traffic of `Build` on the two semaphore channels: a send
into the per-workspace queue / executor queue acquires, the deferred
receive releases. -/
inductive LockEvent where
  | wsAcquire
  | wsRelease
  | execAcquire
  | execRelease
  deriving Repr, DecidableEq

/-- One `Build` invocation's inputs: the decoded arguments plus the
oracle outcomes of every external call, in the order `Build` makes
them. -/
structure BuildEnv where
  decodeOk : Bool
  decodeErr : String
  args : BuildArgs
  workspaceErr : Option String
  wsInterrupted : Bool
  execInterrupted : Bool
  srcDirCheck : Except String Bool
  vcsLookup : Except String Unit
  fetchErr : Option String
  runErr : Option String

/-- `Builder.Build`: decode (code 2), noop short-circuit (code 0),
validate (code 3), workspace creation (code 4), interruptible workspace
lock then executor slot (code 5, `"interrupted"`), source-dir check
(code 6), VCS lookup by scheme (code 7), fetch (code 8), script run
(code 1), success (code 0).  Returns `(code, error-text)` and the
ordered channel events; the deferred releases run after `Resolve`, in
reverse order of the `defer` statements. -/
def build (env : BuildEnv) : (Nat × String) × List LockEvent :=
  if !env.decodeOk then ((2, env.decodeErr), [])
  else if env.args.Noop then ((0, ""), [])
  else
    match validate env.args with
    | some e => ((3, e), [])
    | none =>
      match env.workspaceErr with
      | some e => ((4, e), [])
      | none =>
        if env.wsInterrupted then ((5, "interrupted"), [])
        else if env.execInterrupted then
          ((5, "interrupted"), [.wsAcquire, .wsRelease])
        else
          let outcome : Nat × String :=
            match env.srcDirCheck with
            | .error e => (6, e)
            | .ok _ =>
              match env.vcsLookup with
              | .error e => (7, e)
              | .ok _ =>
                match env.fetchErr with
                | some e => (8, e)
                | none =>
                  match env.runErr with
                  | some e => (1, e)
                  | none => (0, "")
          (outcome, [.wsAcquire, .execAcquire, .execRelease, .wsRelease])

/-- Token counts `(workspace queue, executor queue)` after a sequence of
channel events. -/
def applyEvents (evs : List LockEvent) (s : Nat × Nat) : Nat × Nat :=
  evs.foldl
    (fun s e =>
      match e with
      | .wsAcquire => (s.1 + 1, s.2)
      | .wsRelease => (s.1 - 1, s.2)
      | .execAcquire => (s.1, s.2 + 1)
      | .execRelease => (s.1, s.2 - 1)) s

/-- Claim C1: on every exit path of `Build`, the channel traffic
balances — from any token counts the trace returns to exactly the
starting counts, so the per-workspace queue ends lock-free and the
executor pool ends with all slots free — and whenever the executor slot
was acquired the trace is exactly
`wsAcquire, execAcquire, execRelease, wsRelease`: the slot is released
before the workspace lock, in reverse acquisition order.  The only
possible traces are the empty one, workspace-lock-only, and the full
nested one. -/
theorem build_lock_cleanup (env : BuildEnv) (ws ex : Nat) :
    applyEvents (build env).2 (ws, ex) = (ws, ex) ∧
    (LockEvent.execAcquire ∈ (build env).2 →
      (build env).2 =
        [.wsAcquire, .execAcquire, .execRelease, .wsRelease]) ∧
    ((build env).2 = [] ∨
      (build env).2 = [.wsAcquire, .wsRelease] ∨
      (build env).2 =
        [.wsAcquire, .execAcquire, .execRelease, .wsRelease]) := by
  have htr : (build env).2 = [] ∨
      (build env).2 = [.wsAcquire, .wsRelease] ∨
      (build env).2 =
        [.wsAcquire, .execAcquire, .execRelease, .wsRelease] := by
    unfold build
    repeat' split
    all_goals simp
  refine ⟨?_, ?_, htr⟩
  · rcases htr with h | h | h <;> rw [h] <;> simp [applyEvents]
  · intro hmem
    rcases htr with h | h | h <;> rw [h] <;> rw [h] at hmem <;> simp at hmem ⊢

/-- An environment for the cleanup witness: valid arguments, all
external calls succeed. -/
def happyEnv : BuildEnv :=
  { decodeOk := true, decodeErr := "",
    args := { Repository := "git+ssh://h/p", Script := "s", Env := [], Noop := false },
    workspaceErr := none, wsInterrupted := false, execInterrupted := false,
    srcDirCheck := .ok true, vcsLookup := .ok (), fetchErr := none,
    runErr := none }

/-- Witness for claim C1 on the all-success path: both locks taken, both
released in reverse order, counts restored. -/
theorem build_lock_cleanup_witness :
    applyEvents (build happyEnv).2 (0, 0) = (0, 0) ∧
    (build happyEnv).2 =
      [.wsAcquire, .execAcquire, .execRelease, .wsRelease] := by
  have h := build_lock_cleanup happyEnv 0 0
  exact ⟨h.1, h.2.1 (by decide)⟩

/-- A noop request with an invalid repository scheme. -/
def noopBadArgs : BuildArgs :=
  { Repository := "http://h/p", Script := "s", Env := [], Noop := true }

/-- The environment delivering `noopBadArgs` with a successful decode. -/
def noopBadEnv : BuildEnv :=
  { decodeOk := true, decodeErr := "", args := noopBadArgs,
    workspaceErr := none, wsInterrupted := false, execInterrupted := false,
    srcDirCheck := .ok true, vcsLookup := .ok (), fetchErr := none,
    runErr := none }

/-- Claim C5 counterexample: a request whose arguments decode but fail
validation (scheme `http`) and whose `noop` flag is set resolves with
code 0, not 3 — `Build` checks `Noop` before calling `Validate`. -/
theorem noop_request_skips_validation :
    validate noopBadArgs =
      some "BuildArgs.Validate: unsupported repository URL scheme: http" ∧
    (build noopBadEnv).1 = (0, "") ∧
    (build noopBadEnv).1.1 ≠ 3 := by
  refine ⟨rfl, rfl, by decide⟩

/-- Claim C5 (amended): for every request whose arguments decode
successfully, whose `noop` flag is *not* set, and which fails validation
— in particular a repository whose `url.Parse` succeeds with a scheme
outside `{git+ssh, git+https, git+file}`, or some `env[]` element not
containing `=` — the job handler resolves with return code 3 and the
validation error text, without touching either lock; a repository that
`url.Parse` rejects (e.g. a malformed percent escape) also resolves
with code 3 carrying the wrapped parse error.  (The amendment drops the
noop case: a noop request resolves with code 0 before validation runs,
as the counterexample shows.) -/
theorem build_validation_failure :
    (∀ (env : BuildEnv) (e : String), env.decodeOk = true →
      env.args.Noop = false → validate env.args = some e →
      build env = ((3, e), [])) ∧
    (∀ (args : BuildArgs) (s : List Char), args.Repository ≠ "" →
      args.Script ≠ "" → urlParse args.Repository.data = Except.ok s →
      String.mk s ≠ "git+https" → String.mk s ≠ "git+ssh" →
      String.mk s ≠ "git+file" →
      validate args =
        some ("BuildArgs.Validate: unsupported repository URL scheme: " ++
          String.mk s)) ∧
    (∀ (args : BuildArgs) (s : List Char) (kv : String),
      args.Repository ≠ "" → args.Script ≠ "" →
      urlParse args.Repository.data = Except.ok s →
      (String.mk s = "git+https" ∨ String.mk s = "git+ssh" ∨
        String.mk s = "git+file") →
      args.Env.find? (fun x => !(x.data.contains '=')) = some kv →
      validate args = some ("invalid key-value pair: " ++ kv)) ∧
    (∀ (args : BuildArgs) (ru : List Char) (e : URLError),
      args.Repository ≠ "" → args.Script ≠ "" →
      urlParse args.Repository.data = Except.error (ru, e) →
      validate args =
        some ("BuildArgs.Validate: " ++ urlErrorText ru e)) := by
  refine ⟨?_, ?_, ?_, ?_⟩
  · intro env e hdec hnoop hval
    unfold build
    rw [hdec, hnoop]
    simp only [Bool.not_true, Bool.false_eq_true, if_false, hval]
  · intro args s hrep hscr hs h1 h2 h3
    unfold validate
    rw [if_neg hrep, if_neg hscr, hs]
    exact if_neg (fun hor => hor.elim (fun hx => h1 hx)
      (fun hor2 => hor2.elim (fun hx => h2 hx) (fun hx => h3 hx)))
  · intro args s kv hrep hscr hs hgood hfind
    unfold validate
    rw [if_neg hrep, if_neg hscr, hs]
    show (if String.mk s = "git+https" ∨ String.mk s = "git+ssh" ∨
        String.mk s = "git+file" then
      match args.Env.find? (fun kv => !(kv.data.contains '=')) with
      | some kv => some ("invalid key-value pair: " ++ kv)
      | none => none
      else some ("BuildArgs.Validate: unsupported repository URL scheme: " ++
        String.mk s)) = some ("invalid key-value pair: " ++ kv)
    rw [if_pos hgood, hfind]
  · intro args ru e hrep hscr hpe
    unfold validate
    rw [if_neg hrep, if_neg hscr, hpe]

/-- Arguments with a bad scheme and `noop` unset, for the witness. -/
def badSchemeArgs : BuildArgs :=
  { Repository := "http://h/p", Script := "s", Env := [], Noop := false }

/-- The environment delivering `badSchemeArgs`. -/
def badSchemeEnv : BuildEnv :=
  { decodeOk := true, decodeErr := "", args := badSchemeArgs,
    workspaceErr := none, wsInterrupted := false, execInterrupted := false,
    srcDirCheck := .ok true, vcsLookup := .ok (), fetchErr := none,
    runErr := none }

/-- Arguments with a good scheme but an `env` element without `=`. -/
def badEnvArgs : BuildArgs :=
  { Repository := "git+ssh://h/p", Script := "s", Env := ["FOO"], Noop := false }

/-- Arguments with a good scheme but a malformed percent escape in the
path, which `url.Parse` rejects. -/
def badEscapeArgs : BuildArgs :=
  { Repository := "git+ssh://h/%zz", Script := "s", Env := [], Noop := false }

/-- Witness for the amended claim C5: the bad-scheme non-noop request
resolves with code 3 and the scheme error text; the validation-failure
characterizations hold at concrete arguments, including the
parse-failure path on a repository with a malformed percent escape. -/
theorem build_validation_failure_witness :
    build badSchemeEnv =
      ((3, "BuildArgs.Validate: unsupported repository URL scheme: http"), []) ∧
    validate badSchemeArgs =
      some ("BuildArgs.Validate: unsupported repository URL scheme: " ++
        String.mk "http".data) ∧
    validate badEnvArgs = some ("invalid key-value pair: " ++ "FOO") ∧
    validate badEscapeArgs =
      some ("BuildArgs.Validate: " ++
        urlErrorText "git+ssh://h/%zz".data
          (URLError.escapeError "%zz".data)) := by
  have h := build_validation_failure
  refine ⟨h.1 badSchemeEnv _ rfl rfl rfl,
    h.2.1 badSchemeArgs "http".data (by decide) (by decide) rfl
      (by decide) (by decide) (by decide),
    h.2.2.1 badEnvArgs "git+ssh".data "FOO" (by decide) (by decide) rfl
      (Or.inr (Or.inl (by decide))) rfl,
    h.2.2.2 badEscapeArgs "git+ssh://h/%zz".data
      (URLError.escapeError "%zz".data) (by decide) (by decide) rfl⟩

/-! ## Request/stream id pool (go-cider `services/rpc`, `idPool`) -/

/-- `idPool`: 16-bit wraparound cursor and the allocated set (the Go
`map[uint16]bool` as its membership function). -/
structure IdPool where
  next : Nat
  allocated : Nat → Bool

/-- The ids probed by one `allocate` call, in order: the Go loop sets
`pool.next++` first and stops when it wraps back to the starting value,
so it visits `next + 1, next + 2, …, next + 65535` (mod `2^16`) — every
id except the starting cursor value itself. -/
def idCandidates (next : Nat) : List Nat :=
  (List.range 65535).map (fun k => (next + 1 + k) % 65536)

/-- The pool state after returning id `c`: the cursor rests on `c` and
`c` is inserted into the allocated map. -/
def markAllocated (p : IdPool) (c : Nat) : IdPool :=
  { next := c, allocated := fun i => if i = c then true else p.allocated i }

/-- `idPool.allocate`: first probed id not in the allocated set is
marked and returned (the cursor rests on it); `none` models the
`panic("ID pool depleted")` exit. -/
def allocate (p : IdPool) : Option (Nat × IdPool) :=
  match (idCandidates p.next).find? (fun c => !p.allocated c) with
  | some c => some (c, markAllocated p c)
  | none => none

/-- `idPool.release`: delete the id from the allocated set. -/
def release (p : IdPool) (id : Nat) : IdPool :=
  { p with allocated := fun i => if i = id then false else p.allocated i }

theorem allocate_eq_none (p : IdPool)
    (hall : ∀ x ∈ idCandidates p.next, p.allocated x = true) :
    allocate p = none := by
  unfold allocate
  have hnone : (idCandidates p.next).find? (fun c => !p.allocated c) = none :=
    List.find?_eq_none.mpr (fun x hx => by rw [hall x hx]; simp)
  rw [hnone]

/-- Claim C9 counterexample: a pool in which every id except the current
cursor value 0 is allocated.  Id 0 is free, yet `allocate` panics,
because the scan starts at `next + 1` and stops just before wrapping to
`next`, never probing the cursor value itself. -/
theorem allocate_panics_with_cursor_id_free :
    (IdPool.allocated { next := 0, allocated := fun i => decide (i ≠ 0) } 0
      = false) ∧
    allocate { next := 0, allocated := fun i => decide (i ≠ 0) } = none := by
  constructor
  · rfl
  · apply allocate_eq_none
    intro x hx
    unfold idCandidates at hx
    obtain ⟨k, hk, hkx⟩ := List.mem_map.mp hx
    have hklt : k < 65535 := List.mem_range.mp hk
    have hxval : x = 1 + k := by
      rw [← hkx]
      show (0 + 1 + k) % 65536 = 1 + k
      rw [Nat.zero_add, Nat.mod_eq_of_lt (by omega)]
    show decide (x ≠ 0) = true
    simp only [decide_eq_true_eq]
    omega

/-- Claim C9 (amended): `allocate` never returns an id currently marked
allocated, and it marks the id it returns; it returns normally (with
such an id) whenever at least one id *other than the current cursor
value* is free — i.e. some `(next + k) % 2^16` with `0 < k < 2^16` is
unallocated.  It panics when every probed id is taken, which can happen
with the cursor's own id still free, as the counterexample shows. -/
theorem idPool_allocate_sound (p : IdPool) (k : Nat) (hk0 : 0 < k)
    (hk : k < 65536)
    (hfree : p.allocated ((p.next + k) % 65536) = false) :
    (∀ id p2, allocate p = some (id, p2) →
      p.allocated id = false ∧ p2.allocated id = true) ∧
    (∃ id p2, allocate p = some (id, p2)) := by
  constructor
  · intro id p2 hal
    unfold allocate at hal
    cases hf : (idCandidates p.next).find? (fun c => !p.allocated c) with
    | none => rw [hf] at hal; exact absurd hal (by simp)
    | some c =>
      rw [hf] at hal
      have hc := List.find?_some hf
      have hcid : id = c ∧ p2 = markAllocated p c := by
        have hinj := Option.some.inj hal
        exact ⟨((Prod.mk.injEq _ _ _ _).mp hinj).1.symm,
          ((Prod.mk.injEq _ _ _ _).mp hinj).2.symm⟩
      rcases hcid with ⟨h1, h2⟩
      subst h1
      subst h2
      constructor
      · simpa using hc
      · simp [markAllocated]
  · have hmem : (p.next + k) % 65536 ∈ idCandidates p.next := by
      unfold idCandidates
      apply List.mem_map.mpr
      refine ⟨k - 1, List.mem_range.mpr (by omega), ?_⟩
      congr 1
      omega
    cases hf : (idCandidates p.next).find? (fun c => !p.allocated c) with
    | none =>
      exfalso
      have := List.find?_eq_none.mp hf _ hmem
      rw [hfree] at this
      exact this rfl
    | some c =>
      refine ⟨c, markAllocated p c, ?_⟩
      unfold allocate
      rw [hf]

/-- Witness for the amended claim C9 on the empty pool: id 1 (the
successor of the cursor) is free, and `allocate` returns it with the
mark set. -/
theorem idPool_allocate_sound_witness :
    (IdPool.allocated { next := 0, allocated := fun _ => false }
      ((0 + 1) % 65536) = false) ∧
    (∃ id p2,
      allocate { next := 0, allocated := fun _ => false } = some (id, p2)) := by
  refine ⟨rfl, ?_⟩
  exact (idPool_allocate_sound { next := 0, allocated := fun _ => false } 1
    (by decide) (by decide) rfl).2

end Cider
